import Mathlib

/-!
# Verification of the AIChat CLI core

Shallow embedding of the turn-orchestration and tool-call extraction engine of
the AIChat CLI (Rust), together with the pure cores of its filesystem tools.
Each definition is translated from the corresponding Rust function; I/O
(reading files, writing files, HTTP calls) is factored out by passing file
contents / model responses / dispatch results explicitly.

Machine integers are modelled as `Nat`/`Int` with the exact wrap/saturate
behaviour of the Rust casts involved (`i32 as usize` is a two's-complement
wrap into 64 bits, `usize::saturating_add` caps at `2^64 - 1`, ...).
-/

/-! ## Machine-integer helpers -/

/-- `usize::MAX` on a 64-bit target. -/
def usizeLimit : Nat := 2 ^ 64 - 1

/-- Rust `usize::saturating_add`. -/
def satAddUsize (a b : Nat) : Nat := min (a + b) usizeLimit

/-- Rust `i as usize` for a signed 64-bit-or-narrower value: two's-complement
wrap into 64 bits (`-1 as usize = usize::MAX`). -/
def intAsUsize (i : Int) : Nat := (i % (2 ^ 64 : Int)).toNat

/-- Rust `i32::saturating_sub`. -/
def satSubI32 (a b : Int) : Int := min (max (a - b) (-(2 ^ 31))) (2 ^ 31 - 1)

/-- Rust `i64 as i32`: two's-complement wrap into 32 bits. -/
def i64AsI32 (n : Int) : Int := (n + 2 ^ 31) % 2 ^ 32 - 2 ^ 31

/-- Rust `i64 as usize`: two's-complement wrap into 64 bits. -/
def i64AsUsize (n : Int) : Nat := (n % (2 ^ 64 : Int)).toNat

/-! ## Rust string helpers -/

/-- Split a character list at every `'\n'` (the separator semantics of Rust's
`str::split('\n')`: `n` separators yield `n + 1` pieces). -/
def splitOnNewline : List Char → List (List Char)
  | [] => [[]]
  | c :: r =>
    if c = '\n' then [] :: splitOnNewline r
    else
      match splitOnNewline r with
      | p :: ps => (c :: p) :: ps
      | [] => [[c]]

/-- Strip one trailing carriage return, as Rust's `str::lines` does on each
`\r\n`-terminated line. -/
def stripCRChars (l : List Char) : List Char :=
  if l.getLast? = some '\r' then l.dropLast else l

/-- Rust `str::lines()`: split at `\n`, strip a trailing `\r` from each piece,
and do not produce a final empty line when the string ends with a newline. -/
def rustLines (content : String) : List String :=
  let parts := splitOnNewline content.data
  let parts := if parts.getLast? = some [] then parts.dropLast else parts
  parts.map (fun l => ⟨stripCRChars l⟩)

/-- The whitespace class trimmed by Rust's `str::trim`.  (Rust trims all of
Unicode `White_Space`; every text handled by this development is ASCII, where
the two notions agree.) -/
def isRustWs (c : Char) : Bool := c = ' ' || c = '\t' || c = '\n' || c = '\r'

/-- Rust `str::trim()`. -/
def rustTrim (s : String) : String :=
  ⟨((s.data.dropWhile isRustWs).reverse.dropWhile isRustWs).reverse⟩

/-! ## `fs_read::read_file_lines` (src/cli/chat/tools/fs_read.rs)

Pure core of the line-range read.  The path-existence checks and
`fs::read_to_string` are I/O; the function below receives the file's content
directly and performs the index arithmetic, range check and line selection
exactly as the Rust code does. -/

def read_file_lines (content : String) (start_line end_line : Int) :
    Except String String :=
  let lines := rustLines content
  let line_count := lines.length
  let start : Nat :=
    if start_line < 0 then satAddUsize line_count (intAsUsize start_line)
    else intAsUsize (satSubI32 start_line 1)
  let e : Nat :=
    if end_line < 0 then satAddUsize (satAddUsize line_count (intAsUsize end_line)) 1
    else if end_line = 0 then line_count
    else intAsUsize end_line
  if start ≥ line_count then
    .error ("Starting line " ++ toString start_line ++
      " is outside of the allowed range (1 to " ++ toString line_count ++ ")")
  else
    let e := max e start
    .ok (String.intercalate "\n" ((lines.drop start).take (e - start)))

/-! ## `fs_write::insert_in_file` (src/cli/chat/tools/fs_write.rs)

Pure core of the line insert.  The Rust function reads the file, builds the
new line list in a loop, joins with `\n` and writes the file back; the model
receives the file content and returns the new content paired with the success
message the Rust function returns. -/

/-- The `for (i, &line) in lines.iter().enumerate()` loop body of
`insert_in_file`: push each line, and push `content` right after the line
whose 0-based index `i` satisfies `i + 1 == line_number`. -/
def insertLoop (line_number : Nat) (content : String) : Nat → List String → List String
  | _, [] => []
  | i, l :: ls =>
      if i + 1 = line_number then l :: content :: insertLoop line_number content (i + 1) ls
      else l :: insertLoop line_number content (i + 1) ls

def insert_in_file (path : String) (file_content : String) (line_number : Nat)
    (content : String) : Except String (String × String) :=
  let lines := rustLines file_content
  if line_number > lines.length then
    .error ("Line number " ++ toString line_number ++
      " is out of range (file has " ++ toString lines.length ++ " lines)")
  else
    let new_lines := insertLoop line_number content 0 lines
    .ok (String.intercalate "\n" new_lines,
      "Content inserted successfully at line " ++ toString line_number ++ " in " ++ path)

/-! ## JSON (`serde_json`) model

The extractor validates regex-matched fragments with
`serde_json::from_str::<Value>` and the dispatcher re-parses the tool-call
string and reads fields with `Value::index` / `as_str` / `as_i64` /
`as_object`; the XML extractor serializes a `json!` object back to text.
The model below implements the JSON grammar `serde_json` accepts and the
compact serialization it emits.  Two simplifications that no modelled
behaviour depends on: a numeric literal with a fraction or exponent is
accepted syntactically but its value is recorded as its integer mantissa
(`as_i64` returns `None` on such values in Rust and no modelled input
contains one), and `\uXXXX` escapes are not checked for surrogate pairing. -/

inductive Json where
  | null : Json
  | bool : Bool → Json
  | num : Int → Json
  | str : String → Json
  | arr : List Json → Json
  | obj : List (String × Json) → Json
deriving Repr

/-- JSON whitespace (exactly the four characters the grammar allows). -/
def isJsonWs (c : Char) : Bool := c = ' ' || c = '\t' || c = '\n' || c = '\r'

def skipWs (cs : List Char) : List Char := cs.dropWhile isJsonWs

def hexDigit? (c : Char) : Option Nat :=
  if '0' ≤ c ∧ c ≤ '9' then some (c.toNat - 48)
  else if 'a' ≤ c ∧ c ≤ 'f' then some (c.toNat - 87)
  else if 'A' ≤ c ∧ c ≤ 'F' then some (c.toNat - 55)
  else none

def isDigitCh (c : Char) : Bool := '0' ≤ c && c ≤ '9'

/-- The single-character string escapes of JSON. -/
def jsonEscape? (c : Char) : Option Char :=
  if c = '"' then some '"'
  else if c = '\\' then some '\\'
  else if c = '/' then some '/'
  else if c = 'b' then some (Char.ofNat 8)
  else if c = 'f' then some (Char.ofNat 12)
  else if c = 'n' then some '\n'
  else if c = 'r' then some '\r'
  else if c = 't' then some '\t'
  else none

/-- Parse the body of a JSON string after the opening quote; returns the
decoded characters and the rest after the closing quote.  Raw control
characters below 0x20 are rejected, as `serde_json` does. -/
def parseStrChars : List Char → Option (List Char × List Char)
  | [] => none
  | '\\' :: 'u' :: a :: b :: c :: d :: rest => do
      let ha ← hexDigit? a
      let hb ← hexDigit? b
      let hc ← hexDigit? c
      let hd ← hexDigit? d
      let (s, r) ← parseStrChars rest
      some (Char.ofNat (((ha * 16 + hb) * 16 + hc) * 16 + hd) :: s, r)
  | '\\' :: e :: rest => do
      let ec ← jsonEscape? e
      let (s, r) ← parseStrChars rest
      some (ec :: s, r)
  | c :: rest =>
      if c = '"' then some ([], rest)
      else if c.toNat < 32 then none
      else do
        let (s, r) ← parseStrChars rest
        some (c :: s, r)

def digitsToNat (acc : Nat) : List Char → Nat
  | [] => acc
  | c :: r => digitsToNat (acc * 10 + (c.toNat - 48)) r

/-- Parse a JSON number: `-? int frac? exp?` with `int = 0 | [1-9][0-9]*`.
Fraction and exponent are consumed for syntactic acceptance; the recorded
value is the signed integer mantissa (see the section comment). -/
def parseNumber (cs : List Char) : Option (Json × List Char) :=
  let (neg, cs1) : Bool × List Char :=
    match cs with
    | '-' :: r => (true, r)
    | _ => (false, cs)
  let intPart : Option (Nat × List Char) :=
    match cs1 with
    | '0' :: r => some (0, r)
    | c :: r =>
      if isDigitCh c ∧ c ≠ '0' then
        let ds := r.takeWhile isDigitCh
        some (digitsToNat (c.toNat - 48) ds, r.drop ds.length)
      else none
    | [] => none
  match intPart with
  | none => none
  | some (n, r1) =>
    let frac : Option (List Char) :=
      match r1 with
      | '.' :: r2 =>
        let ds := r2.takeWhile isDigitCh
        if ds.isEmpty then none else some (r2.drop ds.length)
      | _ => some r1
    match frac with
    | none => none
    | some r3 =>
      let expo : Option (List Char) :=
        match r3 with
        | 'e' :: r4 | 'E' :: r4 =>
          let r5 := match r4 with
            | '+' :: r5 => r5
            | '-' :: r5 => r5
            | _ => r4
          let ds := r5.takeWhile isDigitCh
          if ds.isEmpty then none else some (r5.drop ds.length)
        | _ => some r3
      match expo with
      | none => none
      | some r6 => some (.num (if neg then -(n : Int) else (n : Int)), r6)

mutual

/-- Parse one JSON value (after optional leading whitespace).  `fuel`
decreases on every nested parse; the callers supply `input length + 1`,
which is always sufficient since every nesting level consumes a bracket. -/
def parseValue : Nat → List Char → Option (Json × List Char)
  | 0, _ => none
  | Nat.succ fuel, cs =>
    match skipWs cs with
    | 'n' :: 'u' :: 'l' :: 'l' :: r => some (.null, r)
    | 't' :: 'r' :: 'u' :: 'e' :: r => some (.bool true, r)
    | 'f' :: 'a' :: 'l' :: 's' :: 'e' :: r => some (.bool false, r)
    | '"' :: r => (parseStrChars r).map (fun p => (.str ⟨p.1⟩, p.2))
    | '{' :: r => parseObjBody fuel r
    | '[' :: r => parseArrBody fuel r
    | cs' => parseNumber cs'

/-- Parse an object body after the opening brace. -/
def parseObjBody : Nat → List Char → Option (Json × List Char)
  | 0, _ => none
  | Nat.succ fuel, cs =>
    match skipWs cs with
    | '}' :: r => some (.obj [], r)
    | cs' => (parseMembers fuel cs').map (fun p => (.obj p.1, p.2))

/-- Parse one `"key": value` member and the remaining members. -/
def parseMembers : Nat → List Char → Option (List (String × Json) × List Char)
  | 0, _ => none
  | Nat.succ fuel, cs =>
    match skipWs cs with
    | '"' :: r =>
      match parseStrChars r with
      | none => none
      | some (k, r2) =>
        match skipWs r2 with
        | ':' :: r3 =>
          match parseValue fuel r3 with
          | none => none
          | some (v, r4) =>
            match skipWs r4 with
            | ',' :: r5 =>
              (parseMembers fuel r5).map (fun p => ((⟨k⟩, v) :: p.1, p.2))
            | '}' :: r5 => some ([(⟨k⟩, v)], r5)
            | _ => none
        | _ => none
    | _ => none

/-- Parse an array body after the opening bracket. -/
def parseArrBody : Nat → List Char → Option (Json × List Char)
  | 0, _ => none
  | Nat.succ fuel, cs =>
    match skipWs cs with
    | ']' :: r => some (.arr [], r)
    | cs' => (parseElems fuel cs').map (fun p => (.arr p.1, p.2))

/-- Parse one array element and the remaining elements. -/
def parseElems : Nat → List Char → Option (List Json × List Char)
  | 0, _ => none
  | Nat.succ fuel, cs =>
    match parseValue fuel cs with
    | none => none
    | some (v, r) =>
      match skipWs r with
      | ',' :: r2 => (parseElems fuel r2).map (fun p => (v :: p.1, p.2))
      | ']' :: r2 => some ([v], r2)
      | _ => none

end

/-- `serde_json::from_str::<Value>`: parse one value and require that only
whitespace remains. -/
def jsonFromStr (s : String) : Option Json :=
  match parseValue (s.data.length + 1) s.data with
  | some (v, rest) => if skipWs rest = [] then some v else none
  | none => none

/-! ### Serialization (`serde_json::to_string` compact form) -/

def hex4 (n : Nat) : String :=
  let d (k : Nat) : Char :=
    if k < 10 then Char.ofNat (48 + k) else Char.ofNat (87 + k - 10)
  ⟨[d (n / 4096 % 16), d (n / 256 % 16), d (n / 16 % 16), d (n % 16)]⟩

/-- Escape one character inside a serialized JSON string, exactly as
`serde_json` does (`/` is not escaped; control characters below 0x20 other
than the five short escapes become `\u00xx`). -/
def escChar (c : Char) : List Char :=
  if c = '"' then ['\\', '"']
  else if c = '\\' then ['\\', '\\']
  else if c = '\n' then ['\\', 'n']
  else if c = '\r' then ['\\', 'r']
  else if c = '\t' then ['\\', 't']
  else if c.toNat = 8 then ['\\', 'b']
  else if c.toNat = 12 then ['\\', 'f']
  else if c.toNat < 32 then '\\' :: 'u' :: (hex4 c.toNat).data
  else [c]

def escapeString (s : String) : String :=
  "\"" ++ ⟨s.data.flatMap escChar⟩ ++ "\""

mutual

def Json.serialize : Json → String
  | .null => "null"
  | .bool true => "true"
  | .bool false => "false"
  | .num n => toString n
  | .str s => escapeString s
  | .arr xs => "[" ++ serializeElems xs ++ "]"
  | .obj ms => "\x7b" ++ serializeMembers ms ++ "\x7d"

def serializeElems : List Json → String
  | [] => ""
  | [x] => x.serialize
  | x :: y :: r => x.serialize ++ "," ++ serializeElems (y :: r)

def serializeMembers : List (String × Json) → String
  | [] => ""
  | [(k, v)] => escapeString k ++ ":" ++ v.serialize
  | (k, v) :: m :: r =>
      escapeString k ++ ":" ++ v.serialize ++ "," ++ serializeMembers (m :: r)

end

/-- Insertion into a `serde_json::Map` (a `BTreeMap` with the default feature
set): keys kept in ascending order, inserting an existing key overwrites. -/
def btreeInsert (k : String) (v : Json) : List (String × Json) → List (String × Json)
  | [] => [(k, v)]
  | (k', v') :: rest =>
    if k = k' then (k, v) :: rest
    else if k < k' then (k, v) :: (k', v') :: rest
    else (k', v') :: btreeInsert k v rest

/-! ### `serde_json::Value` accessors used by the dispatcher -/

/-- `Value::index` (`value["key"]`): field of an object, `Null` otherwise.
Duplicate keys in the parsed member list follow `serde_json`'s last-one-wins
map insertion. -/
def jsonIndex (j : Json) (k : String) : Json :=
  match j with
  | .obj m =>
    match m.reverse.find? (fun p => p.1 == k) with
    | some p => p.2
    | none => .null
  | _ => .null

def Json.asStr? : Json → Option String
  | .str s => some s
  | _ => none

/-- `Value::as_i64`: the number when it is an integer representable in `i64`. -/
def Json.asI64? : Json → Option Int
  | .num n => if -(2 ^ 63) ≤ n ∧ n < 2 ^ 63 then some n else none
  | _ => none

def Json.asObject? : Json → Option (List (String × Json))
  | .obj m => some m
  | _ => none

/-- `Map::get` on the parameter map (last-one-wins like the map insertion). -/
def mapGet (m : List (String × Json)) (k : String) : Option Json :=
  (m.reverse.find? (fun p => p.1 == k)).map (fun p => p.2)

/-! ## Response parsing (src/cli/chat/mod.rs)

The Rust code uses three `regex` patterns.  Each is modelled by a direct
scanner with the `regex` crate's semantics for that concrete pattern:
leftmost-first matching, non-overlapping iteration that resumes after each
match, lazy `*?` stopping at the first possible terminator, `[\s\S]`
matching any character, `.` matching any character except `'\n'`, and a
greedy negated class `[^x]` stopping at the first excluded character. -/

/-- Leftmost occurrence of `pat`: `some (before, after)` splits the input
around the first occurrence (`after` starts right past it), `none` when `pat`
does not occur. -/
def splitFirst (pat : List Char) : List Char → Option (List Char × List Char)
  | [] => if pat.isEmpty then some ([], []) else none
  | c :: cs =>
    if pat.isPrefixOf (c :: cs) then some ([], (c :: cs).drop pat.length)
    else (splitFirst pat cs).map (fun p => (c :: p.1, p.2))

/-- Whether `pat` occurs as a contiguous sublist. -/
def containsSub (pat : List Char) : List Char → Bool
  | [] => pat.isEmpty
  | c :: cs => pat.isPrefixOf (c :: cs) || containsSub pat cs

/-! ### `extract_xml_tool_calls` -/

/-- Try to match `<parameter name="([^"]+)">([^<]*)</parameter>` at the head
of the input; on success returns the two captures and the rest after the
match. -/
def matchParamAt (cs : List Char) : Option ((String × String) × List Char) :=
  if ("<parameter name=\"".data).isPrefixOf cs then
    let a := cs.drop 17
    let name := a.takeWhile (fun c => c ≠ '"')
    if name.isEmpty then none
    else
      match a.drop name.length with
      | '"' :: '>' :: rest =>
        let v := rest.takeWhile (fun c => c ≠ '<')
        let r2 := rest.drop v.length
        if ("</parameter>".data).isPrefixOf r2 then
          some ((⟨name⟩, ⟨v⟩), r2.drop 12)
        else none
      | _ => none
  else none

/-- `captures_iter` for the parameter pattern: leftmost-first, resuming after
each match.  `fuel` bounds the scan; callers pass `input length + 1`. -/
def scanParams : Nat → List Char → List (String × String)
  | 0, _ => []
  | _ + 1, [] => []
  | fuel + 1, c :: cs =>
    match matchParamAt (c :: cs) with
    | some (p, rest) => p :: scanParams fuel rest
    | none => scanParams fuel cs

/-- Try to match `<invoke name="([^"]+)">([\s\S]*?)</invoke>` at the head of
the input; on success returns the name capture, the body capture and the rest
after the match. -/
def matchInvokeAt (cs : List Char) : Option ((String × List Char) × List Char) :=
  if ("<invoke name=\"".data).isPrefixOf cs then
    let a := cs.drop 14
    let name := a.takeWhile (fun c => c ≠ '"')
    if name.isEmpty then none
    else
      match a.drop name.length with
      | '"' :: '>' :: rest =>
        match splitFirst ("</invoke>".data) rest with
        | some (body, rest2) => some ((⟨name⟩, body), rest2)
        | none => none
      | _ => none
  else none

/-- `captures_iter` for the invoke pattern. -/
def scanInvokes : Nat → List Char → List (String × List Char)
  | 0, _ => []
  | _ + 1, [] => []
  | fuel + 1, c :: cs =>
    match matchInvokeAt (c :: cs) with
    | some (nb, rest) => nb :: scanInvokes fuel rest
    | none => scanInvokes fuel cs

/-- Serialize one invoke capture the way the Rust code does: collect the
parameter captures into a `serde_json::Map` (BTreeMap: sorted keys,
last-one-wins) and print `json!({"name": name, "parameters": map})`
compactly. -/
def invokeToJsonString (name : String) (body : List Char) : String :=
  let params := scanParams (body.length + 1) body
  let m := params.foldl (fun acc p => btreeInsert p.1 (.str p.2) acc) []
  (Json.obj [("name", .str name), ("parameters", .obj m)]).serialize

/-- `extract_xml_tool_calls`: find the first
`<function_calls>([\s\S]*?)</function_calls>` block; inside it, extract every
invoke block as a serialized JSON string.  The leading text is everything
before the first `<function_calls>`, trimmed.  Returns `some` (possibly with
an empty invocation list) whenever the outer block is present. -/
def extract_xml_tool_calls (response : String) : Option (String × List String) :=
  match splitFirst ("<function_calls>".data) response.data with
  | none => none
  | some (before, rest1) =>
    match splitFirst ("</function_calls>".data) rest1 with
    | none => none
    | some (inner, _) =>
      let tool_calls := (scanInvokes (inner.length + 1) inner).map
        (fun nb => invokeToJsonString nb.1 nb.2)
      some (rustTrim ⟨before⟩, tool_calls)

/-! ### `extract_json_tool_calls` -/

/-- The lazy tail `.*?\}` of the fallback pattern: the characters up to the
first `'}'`, failing if a `'\n'` (which `.` cannot match) or the end of input
comes first. -/
def closeBrace : List Char → Option (List Char × List Char)
  | [] => none
  | c :: r =>
    if c = '}' then some ([], r)
    else if c = '\n' then none
    else (closeBrace r).map (fun p => (c :: p.1, p.2))

/-- Leftmost match of `Tool call: (\{.*?\})`: returns the text before the
match, the captured JSON fragment, and the rest after the match. -/
def findToolCallMatch : List Char → Option (List Char × List Char × List Char)
  | [] => none
  | c :: cs =>
    match
      (if ("Tool call: \x7b".data).isPrefixOf (c :: cs) then
        closeBrace ((c :: cs).drop 12)
      else none) with
    | some (inner, rest) => some ([], '{' :: inner ++ ['}'], rest)
    | none =>
      (findToolCallMatch cs).map (fun p => (c :: p.1, p.2.1, p.2.2))

/-- The `captures_iter` loop of `extract_json_tool_calls`: every regex match
is excised from the text (its `last_end` bookkeeping skips the match whether
or not the fragment parses), and a fragment is kept as a tool call only when
it is valid JSON.  `fuel` bounds the scan; callers pass `input length + 1`. -/
def collectToolCalls : Nat → List Char → List Char × List String
  | 0, cs => (cs, [])
  | fuel + 1, cs =>
    match findToolCallMatch cs with
    | none => (cs, [])
    | some (before, frag, after) =>
      (before ++ (collectToolCalls fuel after).1,
        (if (jsonFromStr ⟨frag⟩).isSome then [(⟨frag⟩ : String)] else []) ++
          (collectToolCalls fuel after).2)

/-- `extract_json_tool_calls`: scan for `Tool call: {...}` fragments; when at
least one valid-JSON fragment is found, return the concatenated non-match
text (trimmed) and the fragments in source order, otherwise `None`. -/
def extract_json_tool_calls (response : String) : Option (String × List String) :=
  let r := collectToolCalls (response.data.length + 1) response.data
  if r.2.isEmpty then none
  else some (rustTrim ⟨r.1⟩, r.2)

/-- `extract_tool_calls`: the XML form wins when it matches, otherwise the
JSON fallback is tried. -/
def extract_tool_calls (response : String) : Option (String × List String) :=
  match extract_xml_tool_calls response with
  | some r => some r
  | none => extract_json_tool_calls response

/-- The parse contract as `display_response` consumes it: a `None` from
`extract_tool_calls` means "no tool calls, the whole response is the
message". -/
def parseResponse (response : String) : String × List String :=
  (extract_tool_calls response).getD (response, [])

/-! ## `execute_tool_call` (src/cli/chat/mod.rs)

The dispatcher parses the tool-call string, reads `name` and `parameters`
permissively (`unwrap_or` defaults), and routes to a handler.  The handlers
perform I/O; the model returns the routed handler invocation with its typed
arguments as a `ToolAction` (the pure cores of the handlers are modelled
separately above).  The `bail!` error strings are reproduced verbatim; a
`serde_json` parse failure propagates as an error whose exact (serde-
internal) message is not modelled. -/

inductive ToolAction where
  | executeBash (command : String)
  | fsReadLine (path : String) (start_line end_line : Int)
  | fsReadDirectory (path : String)
  | fsReadSearch (path : String) (pattern : String) (context_lines : Option Nat)
  | fsWriteCreate (path file_text : String)
  | fsWriteStrReplace (path old_str new_str : String)
  | fsWriteAppend (path content : String)
  | fsWriteInsert (path : String) (insert_line : Nat) (content : String)
deriving Repr, DecidableEq

/-- `parameters.get(k).and_then(|v| v.as_str()).unwrap_or(default)`. -/
def paramStr (params : List (String × Json)) (k : String) (default : String) : String :=
  ((mapGet params k).bind Json.asStr?).getD default

/-- `parameters.get(k).and_then(|v| v.as_i64())`. -/
def paramI64 (params : List (String × Json)) (k : String) : Option Int :=
  (mapGet params k).bind Json.asI64?

def execute_tool_call (tool_call : String) : Except String ToolAction :=
  match jsonFromStr tool_call with
  | none => .error "invalid JSON in tool call"
  | some tc =>
    let tool_name := ((jsonIndex tc "name").asStr?).getD ""
    let parameters := ((jsonIndex tc "parameters").asObject?).getD []
    if tool_name = "execute_bash" then
      .ok (.executeBash (paramStr parameters "command" ""))
    else if tool_name = "fs_read" then
      let path := paramStr parameters "path" ""
      let mode := paramStr parameters "mode" "Line"
      if mode = "Line" then
        let start_line := i64AsI32 ((paramI64 parameters "start_line").getD 1)
        let end_line := i64AsI32 ((paramI64 parameters "end_line").getD (-1))
        .ok (.fsReadLine path start_line end_line)
      else if mode = "Directory" then
        .ok (.fsReadDirectory path)
      else if mode = "Search" then
        let pattern := paramStr parameters "pattern" ""
        let context_lines := (paramI64 parameters "context_lines").map i64AsUsize
        .ok (.fsReadSearch path pattern context_lines)
      else .error ("Invalid fs_read mode: " ++ mode)
    else if tool_name = "fs_write" then
      let path := paramStr parameters "path" ""
      let command := paramStr parameters "command" ""
      if command = "create" then
        .ok (.fsWriteCreate path (paramStr parameters "file_text" ""))
      else if command = "str_replace" then
        .ok (.fsWriteStrReplace path (paramStr parameters "old_str" "")
          (paramStr parameters "new_str" ""))
      else if command = "append" then
        .ok (.fsWriteAppend path (paramStr parameters "new_str" ""))
      else if command = "insert" then
        let insert_line := i64AsUsize ((paramI64 parameters "insert_line").getD 0)
        .ok (.fsWriteInsert path insert_line (paramStr parameters "new_str" ""))
      else .error ("Invalid fs_write command: " ++ command)
    else .error ("Unknown tool: " ++ tool_name)

/-! ## `display_response` (src/cli/chat/mod.rs)

The turn loop.  The model client (`get_gemini_response`) is modelled as a
queue of pending response strings carried in the state — an exhausted queue
stands for a model-client failure.  Tool execution is I/O, so the dispatcher
is a parameter `exec` giving each tool call's outcome; every call handed to
it is recorded in `dispatched`.  `writeln!` output is collected in `output`,
the conversation history in `history` as `(role, text)` pairs.  The function
returns the final state together with `some e` when the Rust function would
return `Err(e)` (a `?` abort: the turn stops, mutations so far persist). -/

structure OrchState where
  output : List String
  history : List (String × String)
  queue : List String
  dispatched : List String
deriving Repr, DecidableEq

def writeOut (s : String) (st : OrchState) : OrchState :=
  { st with output := st.output ++ [s] }

/-- `ConversationState::add_assistant_message`. -/
def addAssistant (m : String) (st : OrchState) : OrchState :=
  { st with history := st.history ++ [("assistant", m)] }

/-- `ConversationState::add_user_message`. -/
def addUser (m : String) (st : OrchState) : OrchState :=
  { st with history := st.history ++ [("user", m)] }

/-- Record that `execute_tool_call` was invoked on `c`. -/
def markDispatched (c : String) (st : OrchState) : OrchState :=
  { st with dispatched := st.dispatched ++ [c] }

/-- `get_gemini_response`: pop the next pending model response; an empty
queue models a model-client failure. -/
def getResponse (st : OrchState) : Except String (String × OrchState) :=
  match st.queue with
  | [] => .error "model error"
  | r :: rest => .ok (r, { st with queue := rest })

/-- The inner `for follow_tool_call in follow_tool_calls` loop (nesting level
2): each call is dispatched with `?` — an `Err` aborts the whole turn — and
the model response fetched after it is displayed and appended verbatim,
without being parsed for tool calls. -/
def processLevel2 (exec : String → Except String String) :
    List String → OrchState → OrchState × Option String
  | [], st => (st, none)
  | c :: rest, st =>
    let st := markDispatched c st
    match exec c with
    | .error e => (st, some e)
    | .ok follow_result =>
      let st := addUser ("Tool result: " ++ follow_result)
        (addAssistant ("Tool call: " ++ c) st)
      match getResponse st with
      | .error e => (st, some e)
      | .ok (final_response, st) =>
        processLevel2 exec rest (addAssistant final_response (writeOut final_response st))

/-- The outer `for tool_call in tool_calls` loop (nesting level 1): a
dispatch error is caught, displayed, and used as the tool result; the
follow-up response is re-parsed, and its tool calls (if any) are processed at
level 2. -/
def processLevel1 (exec : String → Except String String) :
    List String → OrchState → OrchState × Option String
  | [], st => (st, none)
  | c :: rest, st =>
    let st := markDispatched c st
    let (result, st) :=
      match exec c with
      | .ok r => (r, st)
      | .error e =>
        let m := "Error executing tool call: " ++ e
        (m, writeOut m st)
    let st := addUser ("Tool result: " ++ result) (addAssistant ("Tool call: " ++ c) st)
    match getResponse st with
    | .error e => (st, some e)
    | .ok (follow_up, st) =>
      match extract_tool_calls follow_up with
      | some (follow_text, follow_tool_calls) =>
        let st := if (rustTrim follow_text).isEmpty then st else writeOut follow_text st
        match processLevel2 exec follow_tool_calls st with
        | (st, some e) => (st, some e)
        | (st, none) => processLevel1 exec rest st
      | none =>
        processLevel1 exec rest (addAssistant follow_up (writeOut follow_up st))

def display_response (exec : String → Except String String) (response : String)
    (st : OrchState) : OrchState × Option String :=
  match extract_tool_calls response with
  | some (text, tool_calls) =>
    let st := if (rustTrim text).isEmpty then st else writeOut text st
    processLevel1 exec tool_calls st
  | none =>
    (addAssistant response (writeOut response st), none)

/-! ## Helper lemmas and claim theorems -/

theorem insertLoop_past (ln : Nat) (c : String) :
    ∀ (ls : List String) (i : Nat), ln ≤ i → insertLoop ln c i ls = ls := by
  intro ls
  induction ls with
  | nil => intro i _; rfl
  | cons l ls ih =>
    intro i hi
    unfold insertLoop
    rw [if_neg (by omega), ih (i + 1) (by omega)]

theorem insertLoop_spec (ln : Nat) (c : String) :
    ∀ (ls : List String) (i : Nat), i < ln → ln ≤ i + ls.length →
      insertLoop ln c i ls = ls.take (ln - i) ++ c :: ls.drop (ln - i) := by
  intro ls
  induction ls with
  | nil => intro i h1 h2; simp at h2; omega
  | cons l ls ih =>
    intro i h1 h2
    unfold insertLoop
    by_cases h : i + 1 = ln
    · rw [if_pos h, insertLoop_past ln c ls (i + 1) (by omega)]
      have : ln - i = 1 := by omega
      simp [this]
    · rw [if_neg h, ih (i + 1) (by omega) (by simp at h2 ⊢; omega)]
      have hsub : ln - i = (ln - (i + 1)) + 1 := by omega
      rw [hsub]
      simp [List.take_succ_cons, List.drop_succ_cons]

/-- Claim C10 (amended): a successful line-insert with 1-based index `i` in
`1..N` writes exactly the original lines with the content placed after line
`i`, joined by single newlines with no trailing newline — so a file whose
original content ended with a newline loses that final newline.  (At `i = 0`
the call also succeeds but the content is dropped, see the counterexample.) -/
theorem C10_insert_result_content (path file_content : String) (i : Nat) (new_str : String)
    (h1 : 1 ≤ i) (h2 : i ≤ (rustLines file_content).length) :
    insert_in_file path file_content i new_str =
      .ok (String.intercalate "\n"
            ((rustLines file_content).take i ++ new_str :: (rustLines file_content).drop i),
        "Content inserted successfully at line " ++ toString i ++ " in " ++ path) := by
  unfold insert_in_file
  rw [if_neg (by omega : ¬ i > (rustLines file_content).length)]
  rw [insertLoop_spec i new_str (rustLines file_content) 0 (by omega) (by omega)]
  simp

theorem read_file_lines_negative_start_always_errors (content : String) (start_line end_line : Int)
    (hneg : start_line < 0) (hcount : (rustLines content).length ≤ usizeLimit) :
    read_file_lines content start_line end_line =
      .error ("Starting line " ++ toString start_line ++
        " is outside of the allowed range (1 to " ++ toString (rustLines content).length ++ ")") := by
  have hge : (rustLines content).length ≤
      satAddUsize (rustLines content).length (intAsUsize start_line) :=
    le_min (Nat.le_add_right _ _) hcount
  unfold read_file_lines
  dsimp only
  rw [if_pos hneg]
  rw [if_pos hge]

/-- Claim C8 (amended): for an in-range positive `start_line` and a positive
`end_line < start_line`, the end bound is clamped up to the start bound, which
makes the half-open selection empty: the read succeeds and returns the empty
string, not the single line at `start_line`. -/
theorem C8_end_before_start_returns_empty (content : String) (s e : Int)
    (h1 : 1 ≤ e) (h2 : e < s) (h3 : s ≤ (rustLines content).length) (h4 : s < 2 ^ 31) :
    read_file_lines content s e = .ok "" := by
  unfold read_file_lines
  dsimp only
  rw [if_neg (by omega : ¬ s < 0), if_neg (by omega : ¬ e < 0), if_neg (by omega : ¬ e = 0)]
  have hs1 : satSubI32 s 1 = s - 1 := by unfold satSubI32; omega
  rw [hs1]
  have hstart : intAsUsize (s - 1) = (s - 1).toNat := by unfold intAsUsize; omega
  have hend : intAsUsize e = e.toNat := by unfold intAsUsize; omega
  rw [hstart, hend]
  rw [if_neg (by omega : ¬ (rustLines content).length ≤ (s - 1).toNat)]
  have hmax : max e.toNat (s - 1).toNat = (s - 1).toNat := by omega
  rw [hmax]
  simp only [Nat.sub_self, List.take_zero]
  rfl

/-- Claim C1 (code bug): line-range read with `start_line = -1` (indeed any
negative start) never returns the last line — it always fails with the
out-of-range error, because `start_line as usize` wraps to a huge value and
`saturating_add` pins `start` at `usize::MAX`.  This contradicts the
function's own doc comment ("negative values count from end") and the spec;
the theorem evaluates the embedded code on this path. -/
theorem C1_negative_start_line_errors (content : String) (end_line : Int)
    (_hN : 1 ≤ (rustLines content).length) (hmax : (rustLines content).length ≤ usizeLimit) :
    read_file_lines content (-1) end_line =
      .error ("Starting line " ++ toString (-1 : Int) ++
        " is outside of the allowed range (1 to " ++ toString (rustLines content).length ++ ")") :=
  read_file_lines_negative_start_always_errors content (-1) end_line (by norm_num) hmax

/-- Witness for C1 on the two-line file. -/
theorem C1_witness :
    1 ≤ (rustLines "a\nb").length ∧
    read_file_lines "a\nb" (-1) (-1) =
      .error "Starting line -1 is outside of the allowed range (1 to 2)" := by
  refine ⟨by decide, ?_⟩
  rw [C1_negative_start_line_errors "a\nb" (-1) (by decide) (by decide)]
  rfl

/-- Counterexample to C8 as stated: on a three-line file, `start_line = 3`,
`end_line = 1` succeeds with the empty string, not the line at `start_line`
(which is the third line). -/
theorem C8_counterexample :
    read_file_lines "a\nb\nc" 3 1 = .ok "" ∧ ("" : String) ≠ "c" :=
  ⟨by rfl, by decide⟩

/-- Witness for C8 on a two-line file. -/
theorem C8_witness :
    (1 : Int) ≤ 1 ∧ (1 : Int) < 2 ∧ (2 : Int) ≤ (rustLines "x\ny").length ∧ (2 : Int) < 2 ^ 31 ∧
    read_file_lines "x\ny" 2 1 = .ok "" :=
  ⟨le_refl 1, by norm_num, by decide, by norm_num,
    C8_end_before_start_returns_empty "x\ny" 2 1 (le_refl 1) (by norm_num) (by decide) (by norm_num)⟩

/-- Claim C7 (code bug): line-insert with index 0 on an existing one-line
file does not insert the content before the first line — the loop condition
`i + 1 == line_number` never fires for `line_number = 0`, so the content is
silently dropped while the function still reports
"Content inserted successfully at line 0". -/
theorem C7_line_zero_drops_content :
    insert_in_file "f.txt" "a" 0 "x" =
      .ok ("a", "Content inserted successfully at line 0 in f.txt") := by rfl

/-- Counterexample to C10 as stated: inserting at index 0 into a file whose
content is one newline-terminated line succeeds but drops the inserted
content, so the result is not "the original lines plus the inserted content"
under either possible placement. -/
theorem C10_counterexample :
    insert_in_file "f.txt" "a\n" 0 "x" =
      .ok ("a", "Content inserted successfully at line 0 in f.txt") ∧
    ("a" : String) ≠ "x\na" ∧ ("a" : String) ≠ "a\nx" :=
  ⟨by rfl, by decide, by decide⟩

/-- Witness for C10: inserting after line 1 of a newline-terminated one-line
file yields exactly the join with no trailing newline. -/
theorem C10_witness :
    1 ≤ 1 ∧ 1 ≤ (rustLines "a\n").length ∧
    insert_in_file "p" "a\n" 1 "x" =
      .ok (String.intercalate "\n" ((rustLines "a\n").take 1 ++ "x" :: (rustLines "a\n").drop 1),
        "Content inserted successfully at line " ++ toString 1 ++ " in " ++ "p") ∧
    String.intercalate "\n" ((rustLines "a\n").take 1 ++ "x" :: (rustLines "a\n").drop 1) = "a\nx" :=
  ⟨le_refl 1, by decide,
    C10_insert_result_content "p" "a\n" 1 "x" (le_refl 1) (by decide), by rfl⟩

theorem splitFirst_eq_none (pat : List Char) :
    ∀ cs : List Char, containsSub pat cs = false → splitFirst pat cs = none := by
  intro cs
  induction cs with
  | nil =>
    intro h
    unfold containsSub at h
    unfold splitFirst
    rw [if_neg (by simp [h])]
  | cons c cs ih =>
    intro h
    unfold containsSub at h
    simp only [Bool.or_eq_false_iff] at h
    unfold splitFirst
    rw [if_neg (by simp [h.1])]
    rw [ih h.2]
    rfl

theorem collectToolCalls_of_no_match (fuel : Nat) (cs : List Char)
    (h : findToolCallMatch cs = none) : collectToolCalls fuel cs = (cs, []) := by
  cases fuel with
  | zero => rfl
  | succ n => unfold collectToolCalls; rw [h]

/-- Claim C9: for a response containing neither the structured-markup outer
marker nor any occurrence of the fallback `Tool call: \x7b...\x7d` pattern,
parsing returns the original text unchanged with an empty invocation list,
and parsing the returned leading text again yields the same result. -/
theorem C9_parse_no_markup (response : String)
    (h1 : containsSub ("<function_calls>".data) response.data = false)
    (h2 : findToolCallMatch response.data = none) :
    parseResponse response = (response, []) ∧
    parseResponse (parseResponse response).1 = parseResponse response := by
  have hx : extract_xml_tool_calls response = none := by
    unfold extract_xml_tool_calls
    rw [splitFirst_eq_none _ _ h1]
  have hj : extract_json_tool_calls response = none := by
    unfold extract_json_tool_calls
    rw [collectToolCalls_of_no_match _ _ h2]
    rfl
  have he : extract_tool_calls response = none := by
    unfold extract_tool_calls
    rw [hx, hj]
  have hp : parseResponse response = (response, []) := by
    unfold parseResponse
    rw [he]
    rfl
  exact ⟨hp, by rw [hp]; exact hp⟩

/-- Witness for C9 on a plain text response. -/
theorem C9_witness :
    containsSub ("<function_calls>".data) ("Sure, here is the answer.").data = false ∧
    findToolCallMatch ("Sure, here is the answer.").data = none ∧
    parseResponse "Sure, here is the answer." = ("Sure, here is the answer.", []) ∧
    parseResponse (parseResponse "Sure, here is the answer.").1
      = parseResponse "Sure, here is the answer." :=
  ⟨by decide, by decide,
    (C9_parse_no_markup "Sure, here is the answer." (by decide) (by decide)).1,
    (C9_parse_no_markup "Sure, here is the answer." (by decide) (by decide)).2⟩

/-- Counterexample to C5 as stated: a response whose outer block contains
zero invocation sub-blocks takes the tool-call branch with an empty list —
the leading text is displayed but nothing is appended to the conversation
history (the final history is empty, with no assistant entry). -/
theorem C5_counterexample :
    display_response (fun _ => .error "unused") "hello<function_calls></function_calls>"
        ⟨[], [], [], []⟩
      = (⟨["hello"], [], [], []⟩, none) ∧
    (⟨["hello"], [], [], []⟩ : OrchState).history = [] :=
  ⟨by rfl, by rfl⟩

/-- Claim C5 (amended): when parsing finds no markup at all (`none`), the
raw response is displayed and appended to history as an assistant message;
when the outer block is present with zero invocation sub-blocks, the leading
text is displayed (when non-blank) but nothing is appended to history. -/
theorem C5_zero_invocations (exec : String → Except String String) (response : String)
    (st : OrchState) :
    (extract_tool_calls response = none →
      display_response exec response st = (addAssistant response (writeOut response st), none)) ∧
    (∀ t, extract_tool_calls response = some (t, []) →
      display_response exec response st =
        ((if (rustTrim t).isEmpty then st else writeOut t st), none)) := by
  constructor
  · intro h
    unfold display_response
    rw [h]
  · intro t h
    unfold display_response
    rw [h]
    rfl

/-- Witness for C5: both branches at concrete responses. -/
theorem C5_witness :
    display_response (fun _ => .error "e0") "just text" ⟨[], [], [], []⟩
        = (addAssistant "just text" (writeOut "just text" ⟨[], [], [], []⟩), none) ∧
    display_response (fun _ => .error "e0") "lead<function_calls></function_calls>"
        ⟨[], [], [], []⟩
      = ((if (rustTrim "lead").isEmpty then (⟨[], [], [], []⟩ : OrchState)
          else writeOut "lead" ⟨[], [], [], []⟩), none) :=
  ⟨(C5_zero_invocations (fun _ => .error "e0") "just text" ⟨[], [], [], []⟩).1 (by rfl),
   (C5_zero_invocations (fun _ => .error "e0") "lead<function_calls></function_calls>"
      ⟨[], [], [], []⟩).2 "lead" (by rfl)⟩

/-- Counterexample to C2 as stated: a dispatch error at nesting level 2
aborts the turn — `display_response` returns the error, and the error text is
neither displayed nor appended to history as a tool result (the history holds
only the level-1 entries). -/
theorem C2_counterexample :
    display_response
        (fun c => if c = "\x7b\"name\":\"execute_bash\",\"parameters\":\x7b\"command\":\"a\"\x7d\x7d"
          then .ok "r1" else .error "boom")
        "<function_calls><invoke name=\"execute_bash\"><parameter name=\"command\">a</parameter></invoke></function_calls>"
        ⟨[], [],
          ["<function_calls><invoke name=\"execute_bash\"><parameter name=\"command\">b</parameter></invoke></function_calls>",
           "f3"], []⟩
      = (⟨[],
          [("assistant", "Tool call: \x7b\"name\":\"execute_bash\",\"parameters\":\x7b\"command\":\"a\"\x7d\x7d"),
           ("user", "Tool result: r1")],
          ["f3"],
          ["\x7b\"name\":\"execute_bash\",\"parameters\":\x7b\"command\":\"a\"\x7d\x7d",
           "\x7b\"name\":\"execute_bash\",\"parameters\":\x7b\"command\":\"b\"\x7d\x7d"]⟩,
         some "boom") := by rfl

theorem processLevel1_error_step (exec : String → Except String String)
    (c e f : String) (rest : List String) (out : List String)
    (hist : List (String × String)) (qrest : List String) (disp : List String)
    (he : exec c = .error e) (hf : extract_tool_calls f = none) :
    processLevel1 exec (c :: rest) ⟨out, hist, f :: qrest, disp⟩ =
      processLevel1 exec rest
        ⟨out ++ ["Error executing tool call: " ++ e, f],
          hist ++ [("assistant", "Tool call: " ++ c),
            ("user", "Tool result: Error executing tool call: " ++ e),
            ("assistant", f)],
          qrest, disp ++ [c]⟩ := by
  conv_lhs => unfold processLevel1
  rw [he]
  dsimp only [markDispatched, writeOut, addAssistant, addUser, getResponse]
  rw [hf]
  have hlit : ("Tool result: " ++ ("Error executing tool call: " ++ e) : String)
      = "Tool result: Error executing tool call: " ++ e := by
    rw [← String.append_assoc]
    rfl
  rw [hlit]
  simp [List.append_assoc]

theorem processLevel1_ok_none_step (exec : String → Except String String)
    (c r f : String) (rest : List String) (out : List String)
    (hist : List (String × String)) (qrest : List String) (disp : List String)
    (he : exec c = .ok r) (hf : extract_tool_calls f = none) :
    processLevel1 exec (c :: rest) ⟨out, hist, f :: qrest, disp⟩ =
      processLevel1 exec rest
        ⟨out ++ [f],
          hist ++ [("assistant", "Tool call: " ++ c), ("user", "Tool result: " ++ r),
            ("assistant", f)],
          qrest, disp ++ [c]⟩ := by
  conv_lhs => unfold processLevel1
  rw [he]
  dsimp only [markDispatched, writeOut, addAssistant, addUser, getResponse]
  rw [hf]
  simp [List.append_assoc]

theorem processLevel1_ok_some_step (exec : String → Except String String)
    (c r f ft : String) (fcalls : List String) (rest : List String) (out : List String)
    (hist : List (String × String)) (qrest : List String) (disp : List String)
    (he : exec c = .ok r) (hf : extract_tool_calls f = some (ft, fcalls)) :
    processLevel1 exec (c :: rest) ⟨out, hist, f :: qrest, disp⟩ =
      match processLevel2 exec fcalls
          ⟨out ++ (if (rustTrim ft).isEmpty then [] else [ft]),
            hist ++ [("assistant", "Tool call: " ++ c), ("user", "Tool result: " ++ r)],
            qrest, disp ++ [c]⟩ with
      | (st, some e2) => (st, some e2)
      | (st, none) => processLevel1 exec rest st := by
  conv_lhs => unfold processLevel1
  rw [he]
  dsimp only [markDispatched, writeOut, addAssistant, addUser, getResponse]
  rw [hf]
  by_cases hb : (rustTrim ft).isEmpty
  · simp [hb, List.append_assoc]
  · simp [hb, List.append_assoc]

theorem processLevel2_ok_step (exec : String → Except String String)
    (d rd g : String) (rest2 : List String) (out : List String)
    (hist : List (String × String)) (qrest : List String) (disp : List String)
    (he : exec d = .ok rd) :
    processLevel2 exec (d :: rest2) ⟨out, hist, g :: qrest, disp⟩ =
      processLevel2 exec rest2
        ⟨out ++ [g],
          hist ++ [("assistant", "Tool call: " ++ d), ("user", "Tool result: " ++ rd),
            ("assistant", g)],
          qrest, disp ++ [d]⟩ := by
  conv_lhs => unfold processLevel2
  rw [he]
  dsimp only [markDispatched, writeOut, addAssistant, addUser, getResponse]
  simp [List.append_assoc]

/-- Claim C2 (amended): a dispatch error at nesting level 1 does not abort
the turn — its text is displayed, fed back into history as the tool result,
and the loop continues with the remaining invocations; a dispatch error at
nesting level 2 propagates immediately, aborting the turn. -/
theorem C2_dispatch_error_by_level (exec : String → Except String String)
    (response t c e f : String) (rest : List String)
    (out : List String) (hist : List (String × String)) (qrest : List String)
    (disp : List String) :
    (extract_tool_calls response = some (t, c :: rest) →
      exec c = .error e →
      extract_tool_calls f = none →
      display_response exec response ⟨out, hist, f :: qrest, disp⟩ =
        processLevel1 exec rest
          ⟨(if (rustTrim t).isEmpty then out else out ++ [t]) ++
              ["Error executing tool call: " ++ e, f],
            hist ++ [("assistant", "Tool call: " ++ c),
              ("user", "Tool result: Error executing tool call: " ++ e),
              ("assistant", f)],
            qrest, disp ++ [c]⟩) ∧
    (∀ (calls2 : List String) (st : OrchState),
      exec c = .error e →
      processLevel2 exec (c :: calls2) st = (markDispatched c st, some e)) := by
  constructor
  · intro hx he hf
    unfold display_response
    rw [hx]
    dsimp only
    by_cases hb : (rustTrim t).isEmpty
    · rw [if_pos hb, processLevel1_error_step exec c e f rest out hist qrest disp he hf,
        if_pos hb]
    · rw [if_neg hb]
      dsimp only [writeOut]
      rw [processLevel1_error_step exec c e f rest (out ++ [t]) hist qrest disp he hf,
        if_neg hb]
  · intro calls2 st he
    unfold processLevel2
    rw [he]

/-- Witness for C2: both levels at concrete inputs. -/
theorem C2_witness :
    display_response (fun _ => .error "boom")
        "<function_calls><invoke name=\"execute_bash\"><parameter name=\"command\">ls</parameter></invoke></function_calls>"
        ⟨[], [], ["done"], []⟩
      = processLevel1 (fun _ => .error "boom") []
          ⟨(if (rustTrim "").isEmpty then [] else [] ++ [""]) ++
              ["Error executing tool call: boom", "done"],
            [] ++ [("assistant",
                "Tool call: \x7b\"name\":\"execute_bash\",\"parameters\":\x7b\"command\":\"ls\"\x7d\x7d"),
              ("user", "Tool result: Error executing tool call: boom"),
              ("assistant", "done")],
            [], [] ++ ["\x7b\"name\":\"execute_bash\",\"parameters\":\x7b\"command\":\"ls\"\x7d\x7d"]⟩ ∧
    processLevel2 (fun _ => .error "boom") ["\x7b\"name\":\"fs_read\"\x7d"] ⟨[], [], [], []⟩
      = (markDispatched "\x7b\"name\":\"fs_read\"\x7d" ⟨[], [], [], []⟩, some "boom") :=
  ⟨(C2_dispatch_error_by_level (fun _ => .error "boom")
      "<function_calls><invoke name=\"execute_bash\"><parameter name=\"command\">ls</parameter></invoke></function_calls>"
      "" "\x7b\"name\":\"execute_bash\",\"parameters\":\x7b\"command\":\"ls\"\x7d\x7d" "boom" "done" []
      [] [] [] []).1 (by rfl) (by rfl) (by rfl),
   (C2_dispatch_error_by_level (fun _ => .error "boom") "x" "x"
      "\x7b\"name\":\"fs_read\"\x7d" "boom" "x" [] [] [] [] []).2 [] ⟨[], [], [], []⟩ (by rfl)⟩

/-- Claim C3: no invocation is ever dispatched at depth greater than 2.
First part (general): after any level-2 invocation succeeds, the next model
response `g` — universally quantified, so in particular one containing
tool-call markup — is displayed and appended to history verbatim, with
nothing parsed or dispatched from it (the trace grows only by the level-2
invocation itself).  Second part (the spec's canonical scenario): two
invocations at level 1, the second one's follow-up yielding one level-2
invocation; the response after the level-2 invocation is appended verbatim
even though it parses to further tool-call markup (hypothesis `_hf3`, unused
precisely because the response is never parsed), and the dispatch trace is
exactly the level-1 and level-2 invocations. -/
theorem C3_no_level3_dispatch (exec : String → Except String String)
    (response t c1 c2 r1 r2 f1 f2 t2 d rd f3 t3 : String) (calls3 : List String)
    (out : List String) (hist : List (String × String)) (qrest : List String)
    (disp : List String) :
    (∀ (d2 rd2 g : String) (rest2 out2 : List String) (hist2 : List (String × String))
        (q2 disp2 : List String),
      exec d2 = .ok rd2 →
      processLevel2 exec (d2 :: rest2) ⟨out2, hist2, g :: q2, disp2⟩ =
        processLevel2 exec rest2
          ⟨out2 ++ [g],
            hist2 ++ [("assistant", "Tool call: " ++ d2), ("user", "Tool result: " ++ rd2),
              ("assistant", g)],
            q2, disp2 ++ [d2]⟩) ∧
    (extract_tool_calls response = some (t, [c1, c2]) →
      exec c1 = .ok r1 →
      extract_tool_calls f1 = none →
      exec c2 = .ok r2 →
      extract_tool_calls f2 = some (t2, [d]) →
      exec d = .ok rd →
      extract_tool_calls f3 = some (t3, calls3) →
      display_response exec response ⟨out, hist, f1 :: f2 :: f3 :: qrest, disp⟩ =
        (⟨(if (rustTrim t).isEmpty then out else out ++ [t]) ++ [f1] ++
            (if (rustTrim t2).isEmpty then [] else [t2]) ++ [f3],
          hist ++ [("assistant", "Tool call: " ++ c1), ("user", "Tool result: " ++ r1),
            ("assistant", f1),
            ("assistant", "Tool call: " ++ c2), ("user", "Tool result: " ++ r2),
            ("assistant", "Tool call: " ++ d), ("user", "Tool result: " ++ rd),
            ("assistant", f3)],
          qrest, disp ++ [c1, c2, d]⟩, none)) := by
  constructor
  · intro d2 rd2 g rest2 out2 hist2 q2 disp2 he
    exact processLevel2_ok_step exec d2 rd2 g rest2 out2 hist2 q2 disp2 he
  · intro hx h1 hf1 h2 hf2 hd _hf3
    unfold display_response
    rw [hx]
    dsimp only
    by_cases hb : (rustTrim t).isEmpty
    · rw [if_pos hb]
      rw [processLevel1_ok_none_step _ _ _ _ _ _ _ _ _ h1 hf1]
      rw [processLevel1_ok_some_step _ _ _ _ _ _ _ _ _ _ _ h2 hf2]
      rw [processLevel2_ok_step _ _ _ _ _ _ _ _ _ hd]
      dsimp only [processLevel2, processLevel1]
      simp [hb, List.append_assoc]
    · rw [if_neg hb]
      dsimp only [writeOut]
      rw [processLevel1_ok_none_step _ _ _ _ _ _ _ _ _ h1 hf1]
      rw [processLevel1_ok_some_step _ _ _ _ _ _ _ _ _ _ _ h2 hf2]
      rw [processLevel2_ok_step _ _ _ _ _ _ _ _ _ hd]
      dsimp only [processLevel2, processLevel1]
      simp [hb, List.append_assoc]

set_option maxRecDepth 4000 in
/-- Witness for C3: the response popped after the level-2 invocation contains
a parseable fallback tool-call, is shown verbatim, and is never dispatched. -/
theorem C3_witness :
    processLevel2
        (fun s => if s = "\x7b\"name\":\"execute_bash\",\"parameters\":\x7b\"command\":\"a\"\x7d\x7d" then .ok "r1"
          else if s = "\x7b\"name\":\"execute_bash\",\"parameters\":\x7b\"command\":\"b\"\x7d\x7d" then .ok "r2"
          else if s = "\x7b\"name\":\"execute_bash\",\"parameters\":\x7b\"command\":\"c\"\x7d\x7d" then .ok "rd"
          else .error "no")
        ["\x7b\"name\":\"execute_bash\",\"parameters\":\x7b\"command\":\"a\"\x7d\x7d"]
        ⟨[], [], ["Tool call: \x7b\"z\":9\x7d trailing"], []⟩
      = processLevel2
          (fun s => if s = "\x7b\"name\":\"execute_bash\",\"parameters\":\x7b\"command\":\"a\"\x7d\x7d" then .ok "r1"
            else if s = "\x7b\"name\":\"execute_bash\",\"parameters\":\x7b\"command\":\"b\"\x7d\x7d" then .ok "r2"
            else if s = "\x7b\"name\":\"execute_bash\",\"parameters\":\x7b\"command\":\"c\"\x7d\x7d" then .ok "rd"
            else .error "no")
          []
          ⟨[] ++ ["Tool call: \x7b\"z\":9\x7d trailing"],
            [] ++ [("assistant", "Tool call: \x7b\"name\":\"execute_bash\",\"parameters\":\x7b\"command\":\"a\"\x7d\x7d"),
              ("user", "Tool result: r1"),
              ("assistant", "Tool call: \x7b\"z\":9\x7d trailing")],
            [], [] ++ ["\x7b\"name\":\"execute_bash\",\"parameters\":\x7b\"command\":\"a\"\x7d\x7d"]⟩ ∧
    display_response
        (fun s => if s = "\x7b\"name\":\"execute_bash\",\"parameters\":\x7b\"command\":\"a\"\x7d\x7d" then .ok "r1"
          else if s = "\x7b\"name\":\"execute_bash\",\"parameters\":\x7b\"command\":\"b\"\x7d\x7d" then .ok "r2"
          else if s = "\x7b\"name\":\"execute_bash\",\"parameters\":\x7b\"command\":\"c\"\x7d\x7d" then .ok "rd"
          else .error "no")
        "Plan:\n<function_calls><invoke name=\"execute_bash\"><parameter name=\"command\">a</parameter></invoke><invoke name=\"execute_bash\"><parameter name=\"command\">b</parameter></invoke></function_calls>"
        ⟨[], [],
          ["first done",
           "<function_calls><invoke name=\"execute_bash\"><parameter name=\"command\">c</parameter></invoke></function_calls>",
           "Tool call: \x7b\"x\":1\x7d after"], []⟩
      = (⟨(if (rustTrim "Plan:").isEmpty then [] else [] ++ ["Plan:"]) ++ ["first done"] ++
            (if (rustTrim "").isEmpty then [] else [""]) ++ ["Tool call: \x7b\"x\":1\x7d after"],
          [] ++ [("assistant", "Tool call: \x7b\"name\":\"execute_bash\",\"parameters\":\x7b\"command\":\"a\"\x7d\x7d"),
            ("user", "Tool result: r1"),
            ("assistant", "first done"),
            ("assistant", "Tool call: \x7b\"name\":\"execute_bash\",\"parameters\":\x7b\"command\":\"b\"\x7d\x7d"),
            ("user", "Tool result: r2"),
            ("assistant", "Tool call: \x7b\"name\":\"execute_bash\",\"parameters\":\x7b\"command\":\"c\"\x7d\x7d"),
            ("user", "Tool result: rd"),
            ("assistant", "Tool call: \x7b\"x\":1\x7d after")],
          [], [] ++ ["\x7b\"name\":\"execute_bash\",\"parameters\":\x7b\"command\":\"a\"\x7d\x7d",
            "\x7b\"name\":\"execute_bash\",\"parameters\":\x7b\"command\":\"b\"\x7d\x7d",
            "\x7b\"name\":\"execute_bash\",\"parameters\":\x7b\"command\":\"c\"\x7d\x7d"]⟩, none) :=
  ⟨(C3_no_level3_dispatch
      (fun s => if s = "\x7b\"name\":\"execute_bash\",\"parameters\":\x7b\"command\":\"a\"\x7d\x7d" then .ok "r1"
        else if s = "\x7b\"name\":\"execute_bash\",\"parameters\":\x7b\"command\":\"b\"\x7d\x7d" then .ok "r2"
        else if s = "\x7b\"name\":\"execute_bash\",\"parameters\":\x7b\"command\":\"c\"\x7d\x7d" then .ok "rd"
        else .error "no")
      "Plan:\n<function_calls><invoke name=\"execute_bash\"><parameter name=\"command\">a</parameter></invoke><invoke name=\"execute_bash\"><parameter name=\"command\">b</parameter></invoke></function_calls>"
      "Plan:" "\x7b\"name\":\"execute_bash\",\"parameters\":\x7b\"command\":\"a\"\x7d\x7d"
      "\x7b\"name\":\"execute_bash\",\"parameters\":\x7b\"command\":\"b\"\x7d\x7d" "r1" "r2"
      "first done"
      "<function_calls><invoke name=\"execute_bash\"><parameter name=\"command\">c</parameter></invoke></function_calls>"
      "" "\x7b\"name\":\"execute_bash\",\"parameters\":\x7b\"command\":\"c\"\x7d\x7d" "rd"
      "Tool call: \x7b\"x\":1\x7d after" "after" ["\x7b\"x\":1\x7d"]
      [] [] [] []).1
      "\x7b\"name\":\"execute_bash\",\"parameters\":\x7b\"command\":\"a\"\x7d\x7d" "r1"
      "Tool call: \x7b\"z\":9\x7d trailing" [] [] [] [] [] (by rfl),
   (C3_no_level3_dispatch
      (fun s => if s = "\x7b\"name\":\"execute_bash\",\"parameters\":\x7b\"command\":\"a\"\x7d\x7d" then .ok "r1"
        else if s = "\x7b\"name\":\"execute_bash\",\"parameters\":\x7b\"command\":\"b\"\x7d\x7d" then .ok "r2"
        else if s = "\x7b\"name\":\"execute_bash\",\"parameters\":\x7b\"command\":\"c\"\x7d\x7d" then .ok "rd"
        else .error "no")
      "Plan:\n<function_calls><invoke name=\"execute_bash\"><parameter name=\"command\">a</parameter></invoke><invoke name=\"execute_bash\"><parameter name=\"command\">b</parameter></invoke></function_calls>"
      "Plan:" "\x7b\"name\":\"execute_bash\",\"parameters\":\x7b\"command\":\"a\"\x7d\x7d"
      "\x7b\"name\":\"execute_bash\",\"parameters\":\x7b\"command\":\"b\"\x7d\x7d" "r1" "r2"
      "first done"
      "<function_calls><invoke name=\"execute_bash\"><parameter name=\"command\">c</parameter></invoke></function_calls>"
      "" "\x7b\"name\":\"execute_bash\",\"parameters\":\x7b\"command\":\"c\"\x7d\x7d" "rd"
      "Tool call: \x7b\"x\":1\x7d after" "after" ["\x7b\"x\":1\x7d"]
      [] [] [] []).2
      (by rfl) (by rfl) (by rfl) (by rfl) (by rfl) (by rfl) (by rfl)⟩

/-- Counterexample to C4 as stated: the cloud-CLI passthrough tool
(`use_aws`) is not registered in the dispatcher, so its name is routed to the
unknown-tool error, not to the `use_aws` handler. -/
theorem C4_counterexample :
    execute_tool_call "\x7b\"name\":\"use_aws\",\"parameters\":\x7b\"service_name\":\"s3\"\x7d\x7d"
      = .error "Unknown tool: use_aws" := by rfl

/-- Claim C4 (amended): dispatch routes exactly three known tool
identifiers — `execute_bash`, `fs_read`, `fs_write` — to their handlers; any
other name (including `use_aws`) yields `Unknown tool: <name>`, an
unrecognized `fs_read` mode yields `Invalid fs_read mode: <mode>`, and an
unrecognized `fs_write` sub-command yields `Invalid fs_write command:
<command>`; the dispatcher is a total function, never a panic. -/
theorem C4_dispatch_routing (s : String) (tc : Json) (h : jsonFromStr s = some tc) :
    (((jsonIndex tc "name").asStr?).getD "" ∉
        (["execute_bash", "fs_read", "fs_write"] : List String) →
      execute_tool_call s =
        .error ("Unknown tool: " ++ ((jsonIndex tc "name").asStr?).getD "")) ∧
    (((jsonIndex tc "name").asStr?).getD "" = "execute_bash" →
      execute_tool_call s = .ok (.executeBash
        (paramStr (((jsonIndex tc "parameters").asObject?).getD []) "command" ""))) ∧
    (((jsonIndex tc "name").asStr?).getD "" = "fs_read" →
      paramStr (((jsonIndex tc "parameters").asObject?).getD []) "mode" "Line" ∉
        (["Line", "Directory", "Search"] : List String) →
      execute_tool_call s = .error ("Invalid fs_read mode: " ++
        paramStr (((jsonIndex tc "parameters").asObject?).getD []) "mode" "Line")) ∧
    (((jsonIndex tc "name").asStr?).getD "" = "fs_write" →
      paramStr (((jsonIndex tc "parameters").asObject?).getD []) "command" "" ∉
        (["create", "str_replace", "append", "insert"] : List String) →
      execute_tool_call s = .error ("Invalid fs_write command: " ++
        paramStr (((jsonIndex tc "parameters").asObject?).getD []) "command" "")) := by
  unfold execute_tool_call
  rw [h]
  dsimp only
  refine ⟨?_, ?_, ?_, ?_⟩
  · intro hn
    simp only [List.mem_cons, List.not_mem_nil] at hn
    push_neg at hn
    rw [if_neg hn.1, if_neg hn.2.1, if_neg hn.2.2.1]
  · intro hn
    rw [if_pos hn]
  · intro hn hm
    simp only [List.mem_cons, List.not_mem_nil] at hm
    push_neg at hm
    have hne : ¬ ((jsonIndex tc "name").asStr?).getD "" = "execute_bash" := by
      rw [hn]; decide
    rw [if_neg hne, if_pos hn, if_neg hm.1, if_neg hm.2.1, if_neg hm.2.2.1]
  · intro hn hm
    simp only [List.mem_cons, List.not_mem_nil] at hm
    push_neg at hm
    have hne1 : ¬ ((jsonIndex tc "name").asStr?).getD "" = "execute_bash" := by
      rw [hn]; decide
    have hne2 : ¬ ((jsonIndex tc "name").asStr?).getD "" = "fs_read" := by
      rw [hn]; decide
    rw [if_neg hne1, if_neg hne2, if_pos hn, if_neg hm.1, if_neg hm.2.1, if_neg hm.2.2.1,
      if_neg hm.2.2.2.1]

/-- Witness for C4: all four routing outcomes at concrete tool calls. -/
theorem C4_witness :
    execute_tool_call "\x7b\"name\":\"frobnicate\"\x7d" = .error "Unknown tool: frobnicate" ∧
    execute_tool_call "\x7b\"name\":\"execute_bash\",\"parameters\":\x7b\"command\":\"ls\"\x7d\x7d"
      = .ok (.executeBash "ls") ∧
    execute_tool_call "\x7b\"name\":\"fs_read\",\"parameters\":\x7b\"path\":\"/x\",\"mode\":\"Zap\"\x7d\x7d"
      = .error "Invalid fs_read mode: Zap" ∧
    execute_tool_call "\x7b\"name\":\"fs_write\",\"parameters\":\x7b\"path\":\"/x\",\"command\":\"zap\"\x7d\x7d"
      = .error "Invalid fs_write command: zap" := by
  refine ⟨?_, ?_, ?_, ?_⟩
  · have h := (C4_dispatch_routing "\x7b\"name\":\"frobnicate\"\x7d"
      (.obj [("name", .str "frobnicate")]) (by rfl)).1 (by decide)
    rw [h]
    rfl
  · have h := (C4_dispatch_routing "\x7b\"name\":\"execute_bash\",\"parameters\":\x7b\"command\":\"ls\"\x7d\x7d"
      (.obj [("name", .str "execute_bash"), ("parameters", .obj [("command", .str "ls")])])
      (by rfl)).2.1 (by rfl)
    rw [h]
    rfl
  · have h := (C4_dispatch_routing "\x7b\"name\":\"fs_read\",\"parameters\":\x7b\"path\":\"/x\",\"mode\":\"Zap\"\x7d\x7d"
      (.obj [("name", .str "fs_read"), ("parameters", .obj [("path", .str "/x"), ("mode", .str "Zap")])])
      (by rfl)).2.2.1 (by rfl) (by decide)
    rw [h]
    rfl
  · have h := (C4_dispatch_routing "\x7b\"name\":\"fs_write\",\"parameters\":\x7b\"path\":\"/x\",\"command\":\"zap\"\x7d\x7d"
      (.obj [("name", .str "fs_write"), ("parameters", .obj [("path", .str "/x"), ("command", .str "zap")])])
      (by rfl)).2.2.2 (by rfl) (by decide)
    rw [h]
    rfl

theorem string_data_append (a b : String) : (a ++ b).data = a.data ++ b.data := rfl

theorem closeBrace_spec :
    ∀ (inner : List Char), (∀ c ∈ inner, c ≠ '}' ∧ c ≠ '\n') →
      ∀ rest : List Char, closeBrace (inner ++ '}' :: rest) = some (inner, rest) := by
  intro inner
  induction inner with
  | nil => intro _ rest; rfl
  | cons c cs ih =>
    intro h rest
    have hc := h c (List.mem_cons_self c cs)
    simp only [closeBrace]
    rw [if_neg (by simpa using hc.1), if_neg (by simpa using hc.2)]
    show Option.map (fun p => (c :: p.1, p.2)) (closeBrace (cs ++ '}' :: rest))
      = some (c :: cs, rest)
    rw [ih (fun x hx => h x (List.mem_cons_of_mem c hx)) rest]
    rfl

theorem findToolCallMatch_free :
    ∀ cs : List Char, (∀ c ∈ cs, c ≠ 'T') → findToolCallMatch cs = none := by
  intro cs
  induction cs with
  | nil => intro _; rfl
  | cons c cs ih =>
    intro h
    have hc : c ≠ 'T' := h c (List.mem_cons_self c cs)
    unfold findToolCallMatch
    have hpref : (("Tool call: \x7b".data).isPrefixOf (c :: cs)) = false := by
      rw [show ("Tool call: \x7b".data) = 'T' :: ("ool call: \x7b".data) from rfl]
      simp [List.isPrefixOf]
      intro hT
      exact absurd hT.symm hc
    rw [hpref]
    simp only [Bool.false_eq_true, if_false]
    rw [ih (fun x hx => h x (List.mem_cons_of_mem c hx))]
    rfl

theorem findToolCallMatch_at :
    ∀ (t : List Char), (∀ c ∈ t, c ≠ 'T') →
    ∀ (inner : List Char), (∀ c ∈ inner, c ≠ '}' ∧ c ≠ '\n') →
    ∀ rest : List Char,
      findToolCallMatch (t ++ ("Tool call: ".data ++ '{' :: inner ++ '}' :: rest))
        = some (t, '{' :: inner ++ ['}'], rest) := by
  intro t
  induction t with
  | nil =>
    intro _ inner hi rest
    rw [show (([] : List Char) ++ ("Tool call: ".data ++ '{' :: inner ++ '}' :: rest))
        = 'T' :: ("ool call: ".data ++ '{' :: inner ++ '}' :: rest) from rfl]
    simp only [findToolCallMatch]
    have hpref : (("Tool call: \x7b".data).isPrefixOf
        ('T' :: ("ool call: ".data ++ '{' :: inner ++ '}' :: rest))) = true := by
      simp [List.isPrefixOf]
    rw [hpref]
    simp only [if_true]
    rw [show (('T' :: ("ool call: ".data ++ '{' :: inner ++ '}' :: rest)).drop 12)
        = inner ++ '}' :: rest from rfl]
    rw [closeBrace_spec inner hi rest]
  | cons c t ih =>
    intro h inner hi rest
    have hc : c ≠ 'T' := h c (List.mem_cons_self c t)
    rw [List.cons_append]
    simp only [findToolCallMatch]
    have hpref : (("Tool call: \x7b".data).isPrefixOf
        (c :: (t ++ ("Tool call: ".data ++ '{' :: inner ++ '}' :: rest)))) = false := by
      rw [show ("Tool call: \x7b".data) = 'T' :: ("ool call: \x7b".data) from rfl]
      simp [List.isPrefixOf]
      intro hT
      exact absurd hT.symm hc
    rw [hpref]
    simp only [Bool.false_eq_true, if_false]
    rw [ih (fun x hx => h x (List.mem_cons_of_mem c hx)) inner hi rest]
    rfl

theorem closeBrace_len :
    ∀ (l i r : List Char), closeBrace l = some (i, r) → l.length = i.length + 1 + r.length := by
  intro l
  induction l with
  | nil => intro i r h; simp [closeBrace] at h
  | cons c cs ih =>
    intro i r h
    simp only [closeBrace] at h
    by_cases hb : c = '}'
    · rw [if_pos hb] at h
      obtain ⟨rfl, rfl⟩ := Prod.mk.injEq .. ▸ (Option.some.injEq .. ▸ h)
      simp only [List.length_cons, List.length_nil]
      omega
    · rw [if_neg hb] at h
      by_cases hn : c = '\n'
      · rw [if_pos hn] at h; exact absurd h (by simp)
      · rw [if_neg hn] at h
        cases hcb : closeBrace cs with
        | none => rw [hcb] at h; exact absurd h (by simp)
        | some p =>
          rw [hcb] at h
          obtain ⟨i', r'⟩ := p
          simp only [Option.map_some', Option.some.injEq] at h
          obtain ⟨rfl, rfl⟩ := Prod.mk.injEq .. ▸ h
          have := ih i' r' hcb
          simp only [List.length_cons]
          omega

theorem findToolCallMatch_len :
    ∀ (cs t f a : List Char), findToolCallMatch cs = some (t, f, a) → a.length < cs.length := by
  intro cs
  induction cs with
  | nil => intro t f a h; simp [findToolCallMatch] at h
  | cons c cs ih =>
    intro t f a h
    simp only [findToolCallMatch] at h
    by_cases hp : (("Tool call: \x7b".data).isPrefixOf (c :: cs)) = true
    · rw [hp] at h
      simp only [if_true] at h
      cases hcb : closeBrace ((c :: cs).drop 12) with
      | none =>
        rw [hcb] at h
        simp only [Option.map_none'] at h
        cases hm : findToolCallMatch cs with
        | none => rw [hm] at h; exact absurd h (by simp)
        | some p =>
          rw [hm] at h
          obtain ⟨t', f', a'⟩ := p
          simp only [Option.map_some', Option.some.injEq, Prod.mk.injEq] at h
          obtain ⟨-, -, ha⟩ := h
          subst ha
          have := ih t' f' a' hm
          simp only [List.length_cons]
          omega
      | some p =>
        rw [hcb] at h
        obtain ⟨inner, rest⟩ := p
        simp only [Option.some.injEq] at h
        obtain ⟨-, -, rfl⟩ := Prod.mk.injEq .. ▸ h
        have hlen := closeBrace_len _ _ _ hcb
        have hdrop : ((c :: cs).drop 12).length = (c :: cs).length - 12 := by
          simp [List.length_drop]
        simp only [List.length_cons] at hdrop ⊢
        omega
    · rw [Bool.not_eq_true] at hp
      rw [hp] at h
      simp only [Bool.false_eq_true, if_false] at h
      cases hm : findToolCallMatch cs with
      | none => rw [hm] at h; exact absurd h (by simp)
      | some p =>
        rw [hm] at h
        obtain ⟨t', f', a'⟩ := p
        simp only [Option.map_some', Option.some.injEq, Prod.mk.injEq] at h
        obtain ⟨-, -, ha⟩ := h
        subst ha
        have := ih t' f' a' hm
        simp only [List.length_cons]
        omega

theorem collectToolCalls_fuel_congr :
    ∀ (f1 : Nat) (cs : List Char), cs.length < f1 → ∀ (f2 : Nat), cs.length < f2 →
      collectToolCalls f1 cs = collectToolCalls f2 cs := by
  intro f1
  induction f1 with
  | zero => intro cs h; omega
  | succ n ih =>
    intro cs h f2 h2
    cases f2 with
    | zero => omega
    | succ m =>
      unfold collectToolCalls
      cases hm : findToolCallMatch cs with
      | none => rfl
      | some p =>
        obtain ⟨t, f, a⟩ := p
        have ha : a.length < cs.length := findToolCallMatch_len cs t f a hm
        dsimp only
        rw [ih a (by omega) m (by omega)]

theorem collectToolCalls_step (fuel : Nat) (cs t f a : List Char)
    (hm : findToolCallMatch cs = some (t, f, a)) :
    collectToolCalls (fuel + 1) cs =
      (t ++ (collectToolCalls fuel a).1,
        (if (jsonFromStr ⟨f⟩).isSome then [(⟨f⟩ : String)] else []) ++
          (collectToolCalls fuel a).2) := by
  conv_lhs => unfold collectToolCalls
  rw [hm]

/-- Claim C6 (amended): only occurrences whose JSON object text contains no
internal closing brace and no newline (flat objects) are recognized; each
such occurrence is returned as one invocation in source order, with the
surrounding text concatenated and trimmed as the leading text.  The
surrounding-text hypothesis (no capital `T`) rules out further occurrences of
the trigger, including ones straddling a boundary. -/
theorem C6_flat_fragments (t1 t2 t3 : String) (i1 i2 : List Char)
    (h1 : ∀ c ∈ t1.data, c ≠ 'T') (h2 : ∀ c ∈ t2.data, c ≠ 'T') (h3 : ∀ c ∈ t3.data, c ≠ 'T')
    (hi1 : ∀ c ∈ i1, c ≠ '}' ∧ c ≠ '\n') (hi2 : ∀ c ∈ i2, c ≠ '}' ∧ c ≠ '\n')
    (hv1 : (jsonFromStr ⟨'{' :: i1 ++ ['}']⟩).isSome = true)
    (hv2 : (jsonFromStr ⟨'{' :: i2 ++ ['}']⟩).isSome = true) :
    extract_json_tool_calls
        (t1 ++ "Tool call: " ++ ⟨'{' :: i1 ++ ['}']⟩ ++ t2 ++ "Tool call: " ++ ⟨'{' :: i2 ++ ['}']⟩ ++ t3)
      = some (rustTrim ⟨t1.data ++ t2.data ++ t3.data⟩,
          [⟨'{' :: i1 ++ ['}']⟩, ⟨'{' :: i2 ++ ['}']⟩]) := by
  have hdata : (t1 ++ "Tool call: " ++ ⟨'{' :: i1 ++ ['}']⟩ ++ t2 ++ "Tool call: " ++
      ⟨'{' :: i2 ++ ['}']⟩ ++ t3).data
      = t1.data ++ ("Tool call: ".data ++ '{' :: i1 ++ '}' ::
          (t2.data ++ ("Tool call: ".data ++ '{' :: i2 ++ '}' :: t3.data))) := by
    simp [string_data_append, List.append_assoc]
  have hm1 : findToolCallMatch (t1 ++ "Tool call: " ++ ⟨'{' :: i1 ++ ['}']⟩ ++ t2 ++
      "Tool call: " ++ ⟨'{' :: i2 ++ ['}']⟩ ++ t3).data
      = some (t1.data, '{' :: i1 ++ ['}'],
          t2.data ++ ("Tool call: ".data ++ '{' :: i2 ++ '}' :: t3.data)) := by
    rw [hdata]
    exact findToolCallMatch_at t1.data h1 i1 hi1 _
  have hm2 : findToolCallMatch (t2.data ++ ("Tool call: ".data ++ '{' :: i2 ++ '}' :: t3.data))
      = some (t2.data, '{' :: i2 ++ ['}'], t3.data) :=
    findToolCallMatch_at t2.data h2 i2 hi2 t3.data
  have hm3 : findToolCallMatch t3.data = none := findToolCallMatch_free t3.data h3
  have hA : (t2.data ++ ("Tool call: ".data ++ '{' :: i2 ++ '}' :: t3.data)).length <
      (t1 ++ "Tool call: " ++ ⟨'{' :: i1 ++ ['}']⟩ ++ t2 ++ "Tool call: " ++
        ⟨'{' :: i2 ++ ['}']⟩ ++ t3).data.length := by
    rw [hdata]
    simp [List.length_append]
    omega
  have hT3 : t3.data.length <
      (t2.data ++ ("Tool call: ".data ++ '{' :: i2 ++ '}' :: t3.data)).length := by
    simp [List.length_append]
    omega
  unfold extract_json_tool_calls
  rw [collectToolCalls_step _ _ _ _ _ hm1]
  rw [collectToolCalls_fuel_congr _ _ hA
    ((t2.data ++ ("Tool call: ".data ++ '{' :: i2 ++ '}' :: t3.data)).length + 1)
    (Nat.lt_succ_self _)]
  rw [collectToolCalls_step _ _ _ _ _ hm2]
  rw [collectToolCalls_of_no_match _ _ hm3]
  simp only [hv1, hv2, if_true]
  simp [List.append_assoc]

/-- Counterexample to C6 as stated: `\x7b"name":"fs_read","parameters":
\x7b"path":"a"\x7d\x7d` is a syntactically well-formed JSON object, yet its
occurrence after the literal prefix tag is not recognized: the lazy `.*?`
stops at the first closing brace, the truncated fragment fails JSON
validation, and the fallback parser returns nothing. -/
theorem C6_counterexample :
    jsonFromStr "\x7b\"name\":\"fs_read\",\"parameters\":\x7b\"path\":\"a\"\x7d\x7d"
      = some (.obj [("name", .str "fs_read"), ("parameters", .obj [("path", .str "a")])]) ∧
    extract_json_tool_calls
        "Tool call: \x7b\"name\":\"fs_read\",\"parameters\":\x7b\"path\":\"a\"\x7d\x7d" = none ∧
    extract_tool_calls
        "Tool call: \x7b\"name\":\"fs_read\",\"parameters\":\x7b\"path\":\"a\"\x7d\x7d" = none :=
  ⟨by rfl, by rfl, by rfl⟩

/-- Witness for C6 with two flat fragments and three text segments. -/
theorem C6_witness :
    (∀ c ∈ ("a ").data, c ≠ 'T') ∧ (∀ c ∈ (" b ").data, c ≠ 'T') ∧ (∀ c ∈ (" c").data, c ≠ 'T') ∧
    (∀ c ∈ ("\"x\":1").data, c ≠ '}' ∧ c ≠ '\n') ∧
    (jsonFromStr ⟨'{' :: ("\"x\":1").data ++ ['}']⟩).isSome = true ∧
    extract_json_tool_calls
        ("a " ++ "Tool call: " ++ ⟨'{' :: ("\"x\":1").data ++ ['}']⟩ ++ " b " ++
          "Tool call: " ++ ⟨'{' :: ("\"y\":2").data ++ ['}']⟩ ++ " c")
      = some (rustTrim ⟨("a ").data ++ (" b ").data ++ (" c").data⟩,
          [⟨'{' :: ("\"x\":1").data ++ ['}']⟩, ⟨'{' :: ("\"y\":2").data ++ ['}']⟩]) :=
  ⟨by decide, by decide, by decide, by decide, by rfl,
    C6_flat_fragments "a " " b " " c" ("\"x\":1").data ("\"y\":2").data
      (by decide) (by decide) (by decide) (by decide) (by decide) (by rfl) (by rfl)⟩
